import Mathlib

/-!
Verification of the Magpie front-end (lexer-token model, AST node family,
Pratt parser) against its natural-language specification.

The AST data model and the renderer are translated from
src/52/src/magpie/ast/ast.go; the parser is translated from the parser
source file (package parser).  The AST file carries the later plural
fields (LetStatement.Names/Values, ReturnStatement.ReturnValues) while the
parser source fills one name/value at a time; following the specification
(section 4.2.4) the single parsed name/value becomes the sole element of
the plural field, and an absent (nil) expression contributes no element.

Go nil pointers of interface type ast.Expression are modelled as
Option Expr with none standing for nil; a Go runtime panic (nil
dereference, out-of-range string access) is modelled by an Option-valued
renderer returning none.  Columns and lines are Int, as Go int.
Go utf8.RuneCountInString is String.length (unicode scalar count);
Go len(string) is String.utf8ByteSize (byte count).
-/

namespace Magpie

/-- Position is the token.Position value record (filename, line, column). -/
structure Position where
  filename : String
  line : Int
  col : Int
  deriving DecidableEq, Repr

/-- Sline renders a position as filename:line, per the spec (section 3.1). -/
def Position.sline (p : Position) : String :=
  p.filename ++ ":" ++ toString p.line

/-- TokenType is the closed token-kind enumeration of the token package
(spec section 3.1). -/
inductive TokenType where
  | ILLEGAL | EOF
  | NUMBER | STRING | IDENTIFIER
  | TRUE | FALSE | NIL
  | FUNCTION | LET | RETURN | IF | ELSE
  | LBRACE | RBRACE | LPAREN | RPAREN | LBRACKET | RBRACKET
  | COMMA | COLON | SEMICOLON | ASSIGN | DOT
  | PLUS | MINUS | MULTIPLY | DIVIDE | MOD | POWER | BANG
  | EQ | NEQ | LT | LE | GT | GE
  | INCREMENT | DECREMENT
  deriving DecidableEq, Repr

/-- Token is the lexer token: kind, literal text, position. -/
structure Token where
  type : TokenType
  literal : String
  pos : Position
  deriving DecidableEq, Repr

/-- zeroToken is the Go zero value of token.Token: zero Position is
(filename "", line 0, col 0).  Only its position is ever observed. -/
def zeroToken : Token :=
  { type := TokenType.ILLEGAL, literal := "", pos := { filename := "", line := 0, col := 0 } }

/-!
AST node family, translated from src/52/src/magpie/ast/ast.go.
Only the variants the parser source constructs are included (the
remaining variants of the data model are never reached by any claim).
Constructor names follow the Go type names.
-/

mutual

inductive Expr where
  | NumberLiteral (token : Token)
  | Identifier (token : Token) (value : String)
  | BooleanLiteral (token : Token) (value : Bool)
  | StringLiteral (token : Token) (value : String)
  | NilLiteral (token : Token)
  | PrefixExpression (token : Token) (operator : String) (right : Option Expr)
  | InfixExpression (token : Token) (operator : String) (left : Option Expr)
      (right : Option Expr) (hasNext : Bool) (nextOperator : String) (next : Option Expr)
  | PostfixExpression (token : Token) (left : Option Expr) (operator : String)
  | IndexExpression (token : Token) (left : Option Expr) (index : Option Expr)
  | CallExpression (token : Token) (function : Option Expr)
      (arguments : List (Option Expr)) (variadic : Bool)
  | MethodCallExpression (token : Token) (object : Option Expr) (call : Option Expr)
  | FunctionLiteral (token : Token) (name : String) (parameters : List Expr)
      (variadic : Bool) (body : Option BlockStatement)
  | ArrayLiteral (token : Token) (members : List (Option Expr))
  | HashLiteral (token : Token) (pairs : List (Option Expr × Option Expr))
      (rbraceToken : Token) (isOrdered : Bool) (order : List (Option Expr))
  | IfExpression (token : Token) (conditions : List (Option IfConditionExpr))
      (alternative : Option BlockStatement)

inductive IfConditionExpr where
  | mk (token : Token) (cond : Option Expr) (body : Option BlockStatement)

inductive BlockStatement where
  | mk (token : Token) (statements : List Stmt) (rbraceToken : Token)

inductive Stmt where
  | LetStatement (token : Token) (names : List Expr) (values : List Expr)
  | ReturnStatement (token : Token) (returnValues : List Expr)
  | BlockStmt (block : BlockStatement)
  | ExpressionStatement (token : Token) (expression : Option Expr)

end

/-!
Renderer: the String() methods of ast.go.  Result type Option String:
none models a Go panic (nil-pointer dereference of a nil child, or the
out-of-range access str[len(str)-1:] of BlockStatement.String on an
empty rendering).  strings.Join is modelled by String.intercalate.
-/

/-- beqExpr is a structural equality test on literal expressions, a
stand-in for Go pointer identity in the dead ordered-hash branch. -/
def beqExpr : Expr → Expr → Bool
  | Expr.NumberLiteral t1, Expr.NumberLiteral t2 => t1 == t2
  | Expr.Identifier t1 v1, Expr.Identifier t2 v2 => t1 == t2 && v1 == v2
  | Expr.BooleanLiteral t1 v1, Expr.BooleanLiteral t2 v2 => t1 == t2 && v1 == v2
  | Expr.StringLiteral t1 v1, Expr.StringLiteral t2 v2 => t1 == t2 && v1 == v2
  | _, _ => false

/-- beqOptExpr lifts beqExpr to possibly-nil expressions. -/
def beqOptExpr : Option Expr → Option Expr → Bool
  | none, none => true
  | some a, some b => beqExpr a b
  | _, _ => false

/-- lookupRendered is the map access value, _ := Pairs[key] of the
ordered branch of HashLiteral.String, over pairs whose values have
already been rendered (rendering is pure, so pre-rendering is
observationally identical to rendering on access); a missing key gives
the zero value nil whose rendering is the none panic. -/
def lookupRendered (k : Option Expr) : List (Option Expr × Option String) → Option String
  | [] => none
  | (k0, v) :: ps => if beqOptExpr k k0 then v else lookupRendered k ps

mutual

/-- exprString is Expr.String() of ast.go, per variant. -/
def exprString : Expr → Option String
  | Expr.NumberLiteral token => some token.literal
  | Expr.Identifier _ value => some value
  | Expr.BooleanLiteral token _ => some token.literal
  | Expr.StringLiteral token _ => some token.literal
  | Expr.NilLiteral token => some token.literal
  | Expr.PrefixExpression _ operator right =>
    match optExprString right with
    | none => none
    | some r => some ("(" ++ operator ++ r ++ ")")
  | Expr.InfixExpression _ operator left right hasNext nextOperator next =>
    match optExprString left, optExprString right with
    | some l, some r =>
      if hasNext then
        match optExprString next with
        | none => none
        | some n =>
          some ("(" ++ l ++ " " ++ operator ++ " " ++ r ++ " " ++ nextOperator ++ " " ++ n ++ ")")
      else
        some ("(" ++ l ++ " " ++ operator ++ " " ++ r ++ ")")
    | _, _ => none
  | Expr.PostfixExpression _ left operator =>
    match optExprString left with
    | none => none
    | some l => some ("(" ++ l ++ operator ++ ")")
  | Expr.IndexExpression _ left index =>
    match optExprString left, optExprString index with
    | some l, some i => some ("(" ++ l ++ "[" ++ i ++ "])")
    | _, _ => none
  | Expr.CallExpression _ function arguments variadic =>
    match optExprString function, optExprListString arguments with
    | some f, some args =>
      some (f ++ "(" ++ String.intercalate ", " args ++ (if variadic then "..." else "") ++ ")")
    | _, _ => none
  | Expr.MethodCallExpression _ object call =>
    match optExprString object, optExprString call with
    | some o, some c => some (o ++ "." ++ c)
    | _, _ => none
  | Expr.FunctionLiteral token name parameters variadic body =>
    match exprListString parameters, optBlockString body with
    | some params, some b =>
      some (token.literal ++ (if name != "" then " " ++ name else "")
        ++ "(" ++ String.intercalate ", " params
        ++ (if variadic then "..." else "") ++ ") \x7b" ++ b ++ "\x7d")
    | _, _ => none
  | Expr.ArrayLiteral _ members =>
    match optExprListString members with
    | none => none
    | some ms => some ("[" ++ String.intercalate ", " ms ++ "]")
  | Expr.HashLiteral _ pairs _ isOrdered order =>
    -- The ordered branch looks each order key up in the pairs map; the
    -- unordered branch iterates the map.  The map iteration order is
    -- modelled as insertion order (Go leaves it unspecified).
    if isOrdered then
      match orderedPairStrings order (renderedPairs pairs) with
      | none => none
      | some ps => some ("\x7b" ++ String.intercalate ", " ps ++ "\x7d")
    else
      match pairListString pairs with
      | none => none
      | some ps => some ("\x7b" ++ String.intercalate ", " ps ++ "\x7d")
  | Expr.IfExpression _ conditions alternative =>
    match condListString true conditions with
    | none => none
    | some cs =>
      match alternative with
      | none => some cs
      | some alt =>
        match blockString alt with
        | none => none
        | some a => some (cs ++ " else " ++ " \x7b " ++ a ++ " \x7d")

/-- optExprString dereferences a possibly-nil expression; none is the panic. -/
def optExprString : Option Expr → Option String
  | none => none
  | some e => exprString e

/-- exprListString renders each element of a list of expressions. -/
def exprListString : List Expr → Option (List String)
  | [] => some []
  | e :: es =>
    match exprString e, exprListString es with
    | some s, some ss => some (s :: ss)
    | _, _ => none

/-- optExprListString renders each element of a list of possibly-nil
expressions. -/
def optExprListString : List (Option Expr) → Option (List String)
  | [] => some []
  | e :: es =>
    match optExprString e, optExprListString es with
    | some s, some ss => some (s :: ss)
    | _, _ => none

/-- pairListString renders hash pairs in the unordered branch of
HashLiteral.String: key ++ ":" ++ value, no space. -/
def pairListString : List (Option Expr × Option Expr) → Option (List String)
  | [] => some []
  | (k, v) :: ps =>
    match optExprString k, optExprString v with
    | some ks, some vs =>
      match pairListString ps with
      | none => none
      | some rest => some ((ks ++ ":" ++ vs) :: rest)
    | _, _ => none

/-- renderedPairs pairs each hash key with the rendering of its value,
feeding the map accesses of the ordered branch. -/
def renderedPairs : List (Option Expr × Option Expr) → List (Option Expr × Option String)
  | [] => []
  | (k, v) :: ps => (k, optExprString v) :: renderedPairs ps

/-- orderedPairStrings renders hash pairs in the ordered branch:
key ++ ": " ++ looked-up value.  This branch is dead under the parser,
which never sets IsOrdered. -/
def orderedPairStrings : List (Option Expr) → List (Option Expr × Option String) →
    Option (List String)
  | [], _ => some []
  | k :: ks, rp =>
    match optExprString k, lookupRendered k rp with
    | some s, some vs =>
      match orderedPairStrings ks rp with
      | none => none
      | some rest => some ((s ++ ": " ++ vs) :: rest)
    | _, _ => none

/-- condListString renders the if / elif chain of IfExpression.String. -/
def condListString : Bool → List (Option IfConditionExpr) → Option String
  | _, [] => some ""
  | first, c :: cs =>
    match optCondString c with
    | none => none
    | some s =>
      match condListString false cs with
      | none => none
      | some rest => some ((if first then "if " else "elif ") ++ s ++ rest)

/-- optCondString dereferences a possibly-nil IfConditionExpr. -/
def optCondString : Option IfConditionExpr → Option String
  | none => none
  | some c => condString c

/-- condString is IfConditionExpr.String: cond { body }. -/
def condString : IfConditionExpr → Option String
  | IfConditionExpr.mk _ cond body =>
    match optExprString cond, optBlockString body with
    | some c, some b => some (c ++ " \x7b " ++ b ++ " \x7d")
    | _, _ => none

/-- optBlockString dereferences a possibly-nil block. -/
def optBlockString : Option BlockStatement → Option String
  | none => none
  | some b => blockString b

/-- blockString is BlockStatement.String: concatenate each statement's
rendering, appending a semicolon unless the rendering already ends in
one.  The Go code reads str[len(str)-1:] with no emptiness guard, so an
empty statement rendering is an out-of-range access, modelled by none. -/
def blockString : BlockStatement → Option String
  | BlockStatement.mk _ statements _ => blockStmtsString statements

/-- blockStmtsString is the statement loop of BlockStatement.String. -/
def blockStmtsString : List Stmt → Option String
  | [] => some ""
  | s :: ss =>
    match stmtString s with
    | none => none
    | some str =>
      if str = "" then
        none
      else
        match blockStmtsString ss with
        | none => none
        | some rest =>
          some (str ++ (if String.takeRight str 1 != ";" then ";" else "") ++ rest)

/-- stmtString is Stmt.String() of ast.go, per variant.  LetStatement and
ReturnStatement carry the plural Names / Values / ReturnValues fields. -/
def stmtString : Stmt → Option String
  | Stmt.LetStatement token names values =>
    match exprListString names with
    | none => none
    | some ns =>
      if values.length = 0 then
        some (token.literal ++ " " ++ String.intercalate ", " ns ++ ";")
      else
        match exprListString values with
        | none => none
        | some vs =>
          some (token.literal ++ " " ++ String.intercalate ", " ns
            ++ " = " ++ String.intercalate ", " vs)
  | Stmt.ReturnStatement token returnValues =>
    match exprListString returnValues with
    | none => none
    | some vs => some (token.literal ++ " " ++ String.intercalate ", " vs ++ ";")
  | Stmt.BlockStmt b => blockString b
  | Stmt.ExpressionStatement _ expression =>
    match expression with
    | none => some ""
    | some e => exprString e

end

/-- programString is Program.String(): the concatenation of the renderings
of the top-level statements. -/
def programString : List Stmt → Option String
  | [] => some ""
  | s :: ss =>
    match stmtString s, programString ss with
    | some a, some b => some (a ++ b)
    | _, _ => none


/-!
Position observations: the Pos() and End() methods of ast.go.
End() can dereference nil children or index empty slices in Go; these
panics are modelled by Option Position = none.  Pos() of CallExpression
renders the callee, so it too can panic.  Rune counts use String.length
and Go len() byte counts use String.utf8ByteSize, exactly as in the
source file.
-/

/-- blockEnd is BlockStatement.End: the RBraceToken position advanced one
column, with the filename of the opening token. -/
def blockEnd : BlockStatement → Position
  | BlockStatement.mk token _ rbraceToken =>
    { filename := token.pos.filename, line := rbraceToken.pos.line,
      col := rbraceToken.pos.col + 1 }

/-- optBlockEnd dereferences a possibly-nil block for End(). -/
def optBlockEnd : Option BlockStatement → Option Position
  | none => none
  | some b => some (blockEnd b)

/-- condEnd is IfConditionExpr.End: the body block's End. -/
def condEnd : IfConditionExpr → Option Position
  | IfConditionExpr.mk _ _ body => optBlockEnd body

/-- lastCondEnd is Conditions[len-1].End() of IfExpression.End; an empty
list is an index-out-of-range panic. -/
def lastCondEnd : List (Option IfConditionExpr) → Option Position
  | [] => none
  | [c] =>
    match c with
    | none => none
    | some ce => condEnd ce
  | _ :: cs => lastCondEnd cs

mutual

/-- exprEnd is Expr.End() of ast.go, per variant. -/
def exprEnd : Expr → Option Position
  | Expr.NumberLiteral token =>
    some { filename := token.pos.filename, line := token.pos.line,
           col := token.pos.col + (token.literal.length : Int) }
  | Expr.Identifier token value =>
    some { filename := token.pos.filename, line := token.pos.line,
           col := token.pos.col + (value.length : Int) }
  | Expr.BooleanLiteral token _ =>
    some { filename := token.pos.filename, line := token.pos.line,
           col := token.pos.col + (token.literal.length : Int) }
  | Expr.StringLiteral token value =>
    some { filename := token.pos.filename, line := token.pos.line,
           col := token.pos.col + (value.length : Int) }
  | Expr.NilLiteral token =>
    -- NilLiteral.End uses len(), a byte count.
    some { filename := token.pos.filename, line := token.pos.line,
           col := token.pos.col + (token.literal.utf8ByteSize : Int) }
  | Expr.PrefixExpression _ _ right => optExprEnd right
  | Expr.InfixExpression _ _ _ right _ _ _ => optExprEnd right
  | Expr.PostfixExpression _ left operator =>
    match optExprEnd left with
    | none => none
    | some p => some { p with col := p.col + (operator.utf8ByteSize : Int) }
  | Expr.IndexExpression _ _ index => optExprEnd index
  | Expr.CallExpression _ function arguments _ =>
    if arguments.length > 0 then lastEnd arguments else optExprEnd function
  | Expr.MethodCallExpression _ _ call => optExprEnd call
  | Expr.FunctionLiteral _ _ _ _ body => optBlockEnd body
  | Expr.ArrayLiteral token members =>
    if members.length > 0 then lastEnd members else some token.pos
  | Expr.HashLiteral token _ rbraceToken _ _ =>
    some { filename := token.pos.filename, line := rbraceToken.pos.line,
           col := rbraceToken.pos.col + 1 }
  | Expr.IfExpression _ conditions alternative =>
    match alternative with
    | some b => some (blockEnd b)
    | none => lastCondEnd conditions

/-- optExprEnd dereferences a possibly-nil expression for End(). -/
def optExprEnd : Option Expr → Option Position
  | none => none
  | some e => exprEnd e

/-- lastEnd is the End() of the final element of a slice of expressions. -/
def lastEnd : List (Option Expr) → Option Position
  | [] => none
  | [e] => optExprEnd e
  | _ :: es => lastEnd es

end

/-- exprPos is Expr.Pos() of ast.go: the node token's position, except
that CallExpression subtracts the rune length of the rendered callee
from the column of its left-parenthesis token. -/
def exprPos : Expr → Option Position
  | Expr.CallExpression token function _ _ =>
    match optExprString function with
    | none => none
    | some f =>
      some { filename := token.pos.filename, line := token.pos.line,
             col := token.pos.col - (f.length : Int) }
  | Expr.NumberLiteral token => some token.pos
  | Expr.Identifier token _ => some token.pos
  | Expr.BooleanLiteral token _ => some token.pos
  | Expr.StringLiteral token _ => some token.pos
  | Expr.NilLiteral token => some token.pos
  | Expr.PrefixExpression token _ _ => some token.pos
  | Expr.InfixExpression token _ _ _ _ _ _ => some token.pos
  | Expr.PostfixExpression token _ _ => some token.pos
  | Expr.IndexExpression token _ _ => some token.pos
  | Expr.MethodCallExpression token _ _ => some token.pos
  | Expr.FunctionLiteral token _ _ _ _ => some token.pos
  | Expr.ArrayLiteral token _ => some token.pos
  | Expr.HashLiteral token _ _ _ _ => some token.pos
  | Expr.IfExpression token _ _ => some token.pos

/-- headEndE is Names[0].End() of LetStatement.End; empty names is an
index-out-of-range panic. -/
def headEndE : List Expr → Option Position
  | [] => none
  | e :: _ => exprEnd e

/-- lastEndE is the End() of the final element of a non-pointer slice. -/
def lastEndE : List Expr → Option Position
  | [] => none
  | [e] => exprEnd e
  | _ :: es => lastEndE es

/-- stmtPos is Stmt.Pos(): always the introducing token's position. -/
def stmtPos : Stmt → Position
  | Stmt.LetStatement token _ _ => token.pos
  | Stmt.ReturnStatement token _ => token.pos
  | Stmt.BlockStmt (BlockStatement.mk token _ _) => token.pos
  | Stmt.ExpressionStatement token _ => token.pos

/-- stmtEnd is Stmt.End() of ast.go, per variant. -/
def stmtEnd : Stmt → Option Position
  | Stmt.LetStatement _ names values =>
    if values.length > 0 then lastEndE values else headEndE names
  | Stmt.ReturnStatement token returnValues =>
    if returnValues.length > 0 then lastEndE returnValues
    else some { filename := token.pos.filename, line := token.pos.line,
                col := token.pos.col + (token.literal.utf8ByteSize : Int) }
  | Stmt.BlockStmt b => some (blockEnd b)
  | Stmt.ExpressionStatement _ expression => optExprEnd expression

/-- lexLE is the lexicographic (line, column) order on positions used by
the end-after-pos invariant of the spec (section 8, invariant 1). -/
def lexLE (p q : Position) : Bool :=
  p.line < q.line || (p.line == q.line && p.col ≤ q.col)

/-!
Lexer.  The character-level lexer is not part of the given sources (the
spec treats it as an external collaborator, section 6.1), so it is
modelled from the spec: it emits the token kinds of section 3.1 with
1-based line and column positions; columns count unicode scalar values
(section 6.4); maximal munch on the two-character operators; keywords
let, return, if, else, fn, true, false, nil; a string literal keeps its
quotes in the token literal; unrecognized characters become ILLEGAL; a
final EOF token carries the position one past the input.
-/

/-- isLetterCh is the identifier alphabet of the modelled lexer. -/
def isLetterCh (c : Char) : Bool :=
  (('a' ≤ c && c ≤ 'z') || ('A' ≤ c && c ≤ 'Z') || c = '_')

/-- isDigitCh is the digit alphabet of the modelled lexer. -/
def isDigitCh (c : Char) : Bool :=
  '0' ≤ c && c ≤ '9'

/-- isIdentCh continues an identifier after its first letter. -/
def isIdentCh (c : Char) : Bool :=
  isLetterCh c || isDigitCh c

/-- keywordType is the keyword table of the modelled lexer
(Modelled from the spec: the lexer itself is not among the sources). -/
def keywordType (w : String) : TokenType :=
  if w = "let" then TokenType.LET
  else if w = "return" then TokenType.RETURN
  else if w = "if" then TokenType.IF
  else if w = "else" then TokenType.ELSE
  else if w = "fn" then TokenType.FUNCTION
  else if w = "true" then TokenType.TRUE
  else if w = "false" then TokenType.FALSE
  else if w = "nil" then TokenType.NIL
  else TokenType.IDENTIFIER

/-- singleCharType maps a single operator or delimiter character to its
token kind; none means the character is ILLEGAL. -/
def singleCharType (c : Char) : Option TokenType :=
  if c = '+' then some TokenType.PLUS
  else if c = '-' then some TokenType.MINUS
  else if c = '*' then some TokenType.MULTIPLY
  else if c = '/' then some TokenType.DIVIDE
  else if c = '%' then some TokenType.MOD
  else if c = '!' then some TokenType.BANG
  else if c = '<' then some TokenType.LT
  else if c = '>' then some TokenType.GT
  else if c = '=' then some TokenType.ASSIGN
  else if c = '(' then some TokenType.LPAREN
  else if c = ')' then some TokenType.RPAREN
  else if c = '[' then some TokenType.LBRACKET
  else if c = ']' then some TokenType.RBRACKET
  else if c = '\x7b' then some TokenType.LBRACE
  else if c = '\x7d' then some TokenType.RBRACE
  else if c = ',' then some TokenType.COMMA
  else if c = ':' then some TokenType.COLON
  else if c = ';' then some TokenType.SEMICOLON
  else if c = '.' then some TokenType.DOT
  else none

/-- twoCharType recognizes the two-character operators by maximal munch. -/
def twoCharType (a b : Char) : Option TokenType :=
  if a = '*' && b = '*' then some TokenType.POWER
  else if a = '=' && b = '=' then some TokenType.EQ
  else if a = '!' && b = '=' then some TokenType.NEQ
  else if a = '<' && b = '=' then some TokenType.LE
  else if a = '>' && b = '=' then some TokenType.GE
  else if a = '+' && b = '+' then some TokenType.INCREMENT
  else if a = '-' && b = '-' then some TokenType.DECREMENT
  else none

/-- tokenizeAux consumes the character list, tracking 1-based line and
column (Modelled from the spec: the character-level lexer is consumed as
an opaque collaborator and is not among the given sources).  Fuel is an
upper bound on the number of remaining characters plus one; every step
consumes at least one character. -/
def tokenizeAux (fname : String) : Nat → List Char → Int → Int → List Token
  | 0, _, _, _ => []
  | _ + 1, [], line, col =>
    [{ type := TokenType.EOF, literal := "",
       pos := { filename := fname, line := line, col := col } }]
  | fuel + 1, c :: cs, line, col =>
    if c = ' ' || c = '\t' || c = '\r' then
      tokenizeAux fname fuel cs line (col + 1)
    else if c = '\n' then
      tokenizeAux fname fuel cs (line + 1) 1
    else if isLetterCh c then
      let w : List Char := c :: cs.takeWhile isIdentCh
      let rest : List Char := cs.dropWhile isIdentCh
      let lit : String := String.mk w
      { type := keywordType lit, literal := lit,
        pos := { filename := fname, line := line, col := col } } ::
        tokenizeAux fname fuel rest line (col + (w.length : Int))
    else if isDigitCh c then
      let w : List Char := c :: cs.takeWhile isDigitCh
      let rest : List Char := cs.dropWhile isDigitCh
      let lit : String := String.mk w
      { type := TokenType.NUMBER, literal := lit,
        pos := { filename := fname, line := line, col := col } } ::
        tokenizeAux fname fuel rest line (col + (w.length : Int))
    else if c = '"' then
      let content : List Char := cs.takeWhile (fun d => d ≠ '"')
      let rest : List Char := cs.dropWhile (fun d => d ≠ '"')
      match rest with
      | '"' :: rest2 =>
        { type := TokenType.STRING, literal := String.mk (c :: content ++ ['"']),
          pos := { filename := fname, line := line, col := col } } ::
          tokenizeAux fname fuel rest2 line (col + (content.length : Int) + 2)
      | _ =>
        [{ type := TokenType.ILLEGAL, literal := String.mk (c :: content),
           pos := { filename := fname, line := line, col := col } }]
    else
      match cs with
      | d :: cs2 =>
        match twoCharType c d with
        | some tt =>
          { type := tt, literal := String.mk [c, d],
            pos := { filename := fname, line := line, col := col } } ::
            tokenizeAux fname fuel cs2 line (col + 2)
        | none =>
          match singleCharType c with
          | some tt =>
            { type := tt, literal := String.mk [c],
              pos := { filename := fname, line := line, col := col } } ::
              tokenizeAux fname fuel cs line (col + 1)
          | none =>
            { type := TokenType.ILLEGAL, literal := String.mk [c],
              pos := { filename := fname, line := line, col := col } } ::
              tokenizeAux fname fuel cs line (col + 1)
      | [] =>
        match singleCharType c with
        | some tt =>
          { type := tt, literal := String.mk [c],
            pos := { filename := fname, line := line, col := col } } ::
            tokenizeAux fname fuel [] line (col + 1)
        | none =>
          { type := TokenType.ILLEGAL, literal := String.mk [c],
            pos := { filename := fname, line := line, col := col } } ::
            tokenizeAux fname fuel [] line (col + 1)

/-- tokenize runs the modelled lexer over a source string with an empty
filename, producing the EOF-terminated token stream. -/
def tokenize (s : String) : List Token :=
  tokenizeAux "" (s.data.length + 1) s.data 1 1

/-!
Pratt parser, translated from the parser source file (package parser).
Parser state carries the two-token lookahead window, the remaining token
stream, and the two parallel error sequences.  Error messages are kept
structured (constructor plus position) rather than as the Go format
strings, since the %v rendering of a Position lives in the token package
that is not among the sources; each ErrMsg constructor carries exactly
the data the Go message interpolates.  Dispatch tables are total
functions fixed at registration (registerAction); the second
registration for ILLEGAL overwrites the first, leaving
parseInfixIllegalExpression as the ILLEGAL prefix parselet and no
ILLEGAL infix parselet.
-/

/-- ErrMsg is the structured form of the parser's error messages. -/
inductive ErrMsg where
  | expectedNext (expected got : TokenType)
  | noPrefixFn (t : TokenType)
  | illegalToken (literal : String)
  | notFloat (literal : String)
  | elseNoBrace
  | ifNoBrace
  deriving DecidableEq, Repr

/-- PError is one recorded error: message and the position interpolated
into it. -/
structure PError where
  msg : ErrMsg
  pos : Position
  deriving DecidableEq, Repr

/-- PState is the Parser struct: lookahead window, remaining stream,
errors and errorLines. -/
structure PState where
  curToken : Token
  peekToken : Token
  rest : List Token
  errors : List PError
  errorLines : List String
  deriving Repr

/-- nextToken shifts the lookahead window; once the stream is exhausted
the peek token stays put, modelling a lexer that emits EOF forever. -/
def nextToken (st : PState) : PState :=
  match st.rest with
  | [] => { st with curToken := st.peekToken }
  | t :: ts => { st with curToken := st.peekToken, peekToken := t, rest := ts }

/-- recordError appends one message (with its interpolated position) to
errors and one filename:line string to errorLines, as every error site
of the parser does. -/
def recordError (m : ErrMsg) (mpos lpos : Position) (st : PState) : PState :=
  { st with errors := st.errors ++ [{ msg := m, pos := mpos }],
            errorLines := st.errorLines ++ [lpos.sline] }

/-- curTokenIs tests the current token kind. -/
def curTokenIs (t : TokenType) (st : PState) : Bool :=
  st.curToken.type == t

/-- peekTokenIs tests the peek token kind. -/
def peekTokenIs (t : TokenType) (st : PState) : Bool :=
  st.peekToken.type == t

/-- peekError records the expected-next-token error: its position is the
current token's position with the column advanced by the rune count of
the current token's literal, and its error line is the current token's
filename:line. -/
def peekError (t : TokenType) (st : PState) : PState :=
  let newPos : Position :=
    { st.curToken.pos with col := st.curToken.pos.col + (st.curToken.literal.length : Int) }
  recordError (ErrMsg.expectedNext t st.peekToken.type) newPos st.curToken.pos st

/-- expectPeek advances past a matching peek token; otherwise it records
the peekError and stays put. -/
def expectPeek (t : TokenType) (st : PState) : Bool × PState :=
  if peekTokenIs t st then (true, nextToken st) else (false, peekError t st)

/-- noPrefixParseFnError records the missing-prefix-parselet error for
every kind except EOF, which is exempt. -/
def noPrefixParseFnError (t : TokenType) (st : PState) : PState :=
  if t == TokenType.EOF then st
  else recordError (ErrMsg.noPrefixFn t) st.curToken.pos st.curToken.pos st

/-- LOWEST through CALL are the precedence ladder constants (iota from 1). -/
def LOWEST : Nat := 1

/-- EQUALS is the precedence of == and !=. -/
def EQUALS : Nat := 2

/-- LESSGREATER is the precedence of the comparison operators. -/
def LESSGREATER : Nat := 3

/-- SUM is the precedence of + and -. -/
def SUM : Nat := 4

/-- PRODUCT is the precedence of *, /, % and **. -/
def PRODUCT : Nat := 5

/-- PREFIX is the precedence of unary operators. -/
def PREFIX : Nat := 6

/-- INCREMENT is the precedence of ++ and --. -/
def INCREMENT : Nat := 7

/-- CALL is the precedence of call, dot and index. -/
def CALL : Nat := 8

/-- precedenceOf is the precedences map; kinds not in the map default to
LOWEST (as peekPrecedence and curPrecedence do). -/
def precedenceOf : TokenType → Nat
  | TokenType.EQ => EQUALS
  | TokenType.NEQ => EQUALS
  | TokenType.LT => LESSGREATER
  | TokenType.LE => LESSGREATER
  | TokenType.GT => LESSGREATER
  | TokenType.GE => LESSGREATER
  | TokenType.PLUS => SUM
  | TokenType.MINUS => SUM
  | TokenType.MULTIPLY => PRODUCT
  | TokenType.DIVIDE => PRODUCT
  | TokenType.MOD => PRODUCT
  | TokenType.POWER => PRODUCT
  | TokenType.LPAREN => CALL
  | TokenType.DOT => CALL
  | TokenType.LBRACKET => CALL
  | TokenType.INCREMENT => INCREMENT
  | TokenType.DECREMENT => INCREMENT
  | _ => LOWEST

/-- peekPrecedence is the precedence of the peek token's kind. -/
def peekPrecedence (st : PState) : Nat :=
  precedenceOf st.peekToken.type

/-- curPrecedence is the precedence of the current token's kind. -/
def curPrecedence (st : PState) : Nat :=
  precedenceOf st.curToken.type

/-- PrefixFnTag names the registered prefix parselets. -/
inductive PrefixFnTag where
  | tagIllegal | tagNumber | tagIdent | tagString | tagFunction | tagBoolean
  | tagArray | tagHash | tagNil | tagPrefixOp | tagGroup | tagIf
  deriving DecidableEq, Repr

/-- InfixFnTag names the registered infix parselets. -/
inductive InfixFnTag where
  | tagInfixOp | tagCall | tagIndex | tagPostfixOp | tagMethod
  deriving DecidableEq, Repr

/-- lookupPrefixFn is the prefix dispatch table built by registerAction. -/
def lookupPrefixFn : TokenType → Option PrefixFnTag
  | TokenType.ILLEGAL => some PrefixFnTag.tagIllegal
  | TokenType.NUMBER => some PrefixFnTag.tagNumber
  | TokenType.IDENTIFIER => some PrefixFnTag.tagIdent
  | TokenType.STRING => some PrefixFnTag.tagString
  | TokenType.FUNCTION => some PrefixFnTag.tagFunction
  | TokenType.TRUE => some PrefixFnTag.tagBoolean
  | TokenType.FALSE => some PrefixFnTag.tagBoolean
  | TokenType.LBRACKET => some PrefixFnTag.tagArray
  | TokenType.LBRACE => some PrefixFnTag.tagHash
  | TokenType.NIL => some PrefixFnTag.tagNil
  | TokenType.PLUS => some PrefixFnTag.tagPrefixOp
  | TokenType.MINUS => some PrefixFnTag.tagPrefixOp
  | TokenType.BANG => some PrefixFnTag.tagPrefixOp
  | TokenType.LPAREN => some PrefixFnTag.tagGroup
  | TokenType.IF => some PrefixFnTag.tagIf
  | _ => none

/-- lookupInfixFn is the infix dispatch table built by registerAction. -/
def lookupInfixFn : TokenType → Option InfixFnTag
  | TokenType.PLUS => some InfixFnTag.tagInfixOp
  | TokenType.MINUS => some InfixFnTag.tagInfixOp
  | TokenType.MULTIPLY => some InfixFnTag.tagInfixOp
  | TokenType.DIVIDE => some InfixFnTag.tagInfixOp
  | TokenType.MOD => some InfixFnTag.tagInfixOp
  | TokenType.POWER => some InfixFnTag.tagInfixOp
  | TokenType.LT => some InfixFnTag.tagInfixOp
  | TokenType.LE => some InfixFnTag.tagInfixOp
  | TokenType.GT => some InfixFnTag.tagInfixOp
  | TokenType.GE => some InfixFnTag.tagInfixOp
  | TokenType.EQ => some InfixFnTag.tagInfixOp
  | TokenType.NEQ => some InfixFnTag.tagInfixOp
  | TokenType.LPAREN => some InfixFnTag.tagCall
  | TokenType.LBRACKET => some InfixFnTag.tagIndex
  | TokenType.INCREMENT => some InfixFnTag.tagPostfixOp
  | TokenType.DECREMENT => some InfixFnTag.tagPostfixOp
  | TokenType.DOT => some InfixFnTag.tagMethod
  | _ => none

/-- stmtExpr reads the Expression field of an expression statement, as
parseLetStatement, parseReturnStatement and parseConditionalExpression do
on the result of parseExpressionStatement. -/
def stmtExpr : Stmt → Option Expr
  | Stmt.ExpressionStatement _ e => e
  | _ => none

/-- isValidFloat is a conservative model of strconv.ParseFloat for the
literals at hand: the modelled lexer emits only nonempty digit strings
as NUMBER literals, on which ParseFloat always succeeds; the model
accepts nonempty strings of digits with at most one decimal point. -/
def isValidFloat (lit : String) : Bool :=
  lit.data.any isDigitCh &&
  lit.data.all (fun c => isDigitCh c || c = '.') &&
  (lit.data.filter (fun c => c = '.')).length ≤ 1

/-- parseNumber builds a NumberLiteral (the float64 Value, unused by any
rendering or position, is not tracked); on ParseFloat failure it records
the not-a-float error and yields nil. -/
def parseNumber (st : PState) : Option Expr × PState :=
  if isValidFloat st.curToken.literal then
    (some (Expr.NumberLiteral st.curToken), st)
  else
    (none, recordError (ErrMsg.notFloat st.curToken.literal)
      st.curToken.pos st.curToken.pos st)

/-- parseIdentifier builds an Identifier from the current token. -/
def parseIdentifier (st : PState) : Expr :=
  Expr.Identifier st.curToken st.curToken.literal

/-- parseBooleanLiteral builds a BooleanLiteral from the current token. -/
def parseBooleanLiteral (st : PState) : Option Expr × PState :=
  (some (Expr.BooleanLiteral st.curToken (curTokenIs TokenType.TRUE st)), st)

/-- parseStringLiteral builds a StringLiteral from the current token. -/
def parseStringLiteral (st : PState) : Option Expr × PState :=
  (some (Expr.StringLiteral st.curToken st.curToken.literal), st)

/-- parseNilExpression builds a NilLiteral from the current token. -/
def parseNilExpression (st : PState) : Option Expr × PState :=
  (some (Expr.NilLiteral st.curToken), st)

/-- parseInfixIllegalExpression records the illegal-token error and
yields nil; after the double registration in registerAction it is the
prefix parselet for ILLEGAL. -/
def parseInfixIllegalExpression (st : PState) : Option Expr × PState :=
  (none, recordError (ErrMsg.illegalToken st.curToken.literal)
    st.curToken.pos st.curToken.pos st)

/-- parsePostfixExpression builds a PostfixExpression from the operator
at the current token and the already-parsed left operand. -/
def parsePostfixExpression (left : Option Expr) (st : PState) : Option Expr × PState :=
  (some (Expr.PostfixExpression st.curToken left st.curToken.literal), st)

/-!
Mutually recursive parser functions.  Go's unbounded recursion is fueled:
every function consumes one unit of fuel per call.  A run with enough
fuel computes exactly what the Go parser computes; the fuel-exhaustion
defaults (empty or nil results with the state unchanged) are never taken
in any concrete run of this file.
-/

mutual

/-- ParseProgram repeatedly parses statements until EOF, advancing one
token between statements; parseStatement never returns nil. -/
def ParseProgram : Nat → PState → List Stmt × PState
  | 0, st => ([], st)
  | fuel + 1, st =>
    if curTokenIs TokenType.EOF st then ([], st)
    else
      let (stmt, st1) := parseStatement fuel st
      let st2 := nextToken st1
      let (restStmts, st3) := ParseProgram fuel st2
      (stmt :: restStmts, st3)

/-- parseStatement dispatches on the current token kind: LET, RETURN,
LBRACE, otherwise expression statement. -/
def parseStatement : Nat → PState → Stmt × PState
  | 0, st => (Stmt.ExpressionStatement zeroToken none, st)
  | fuel + 1, st =>
    match st.curToken.type with
    | TokenType.LET => parseLetStatement fuel st
    | TokenType.RETURN => parseReturnStatement fuel st
    | TokenType.LBRACE =>
      let (b, st1) := parseBlockStatement fuel st
      (Stmt.BlockStmt b, st1)
    | _ => parseExpressionStatement fuel st

/-- parseLetStatement expects an IDENTIFIER for the single name, then an
ASSIGN and one expression for the single value; per the spec the one
name/value becomes the sole element of the plural field and an absent
expression contributes no element. -/
def parseLetStatement : Nat → PState → Stmt × PState
  | 0, st => (Stmt.ExpressionStatement zeroToken none, st)
  | fuel + 1, st =>
    let letTok := st.curToken
    let (ok1, st1) := expectPeek TokenType.IDENTIFIER st
    let names : List Expr := if ok1 then [parseIdentifier st1] else []
    let (ok2, st2) := expectPeek TokenType.ASSIGN st1
    if ok2 then
      let st3 := nextToken st2
      let (es, st4) := parseExpressionStatement fuel st3
      let values : List Expr :=
        match stmtExpr es with
        | some v => [v]
        | none => []
      (Stmt.LetStatement letTok names values, st4)
    else
      (Stmt.LetStatement letTok names [], st2)

/-- parseReturnStatement returns empty return values before SEMICOLON
(consumed) or RBRACE (left in place); otherwise it parses one
expression, which becomes the sole element of ReturnValues. -/
def parseReturnStatement : Nat → PState → Stmt × PState
  | 0, st => (Stmt.ExpressionStatement zeroToken none, st)
  | fuel + 1, st =>
    let retTok := st.curToken
    if peekTokenIs TokenType.SEMICOLON st then
      (Stmt.ReturnStatement retTok [], nextToken st)
    else if peekTokenIs TokenType.RBRACE st then
      (Stmt.ReturnStatement retTok [], st)
    else
      let st1 := nextToken st
      let (es, st2) := parseExpressionStatement fuel st1
      let values : List Expr :=
        match stmtExpr es with
        | some v => [v]
        | none => []
      (Stmt.ReturnStatement retTok values, st2)

/-- parseBlockStatement collects statements until RBRACE or EOF and then
records RBraceToken from the current token. -/
def parseBlockStatement : Nat → PState → BlockStatement × PState
  | 0, st => (BlockStatement.mk zeroToken [] zeroToken, st)
  | fuel + 1, st =>
    let blockTok := st.curToken
    let st1 := nextToken st
    let (stmts, st2) := blockLoop fuel st1
    (BlockStatement.mk blockTok stmts st2.curToken, st2)

/-- blockLoop is the statement loop of parseBlockStatement: stop at
RBRACE; after each statement stop if peek is EOF, else advance. -/
def blockLoop : Nat → PState → List Stmt × PState
  | 0, st => ([], st)
  | fuel + 1, st =>
    if curTokenIs TokenType.RBRACE st then ([], st)
    else
      let (stmt, st1) := parseStatement fuel st
      if peekTokenIs TokenType.EOF st1 then ([stmt], st1)
      else
        let st2 := nextToken st1
        let (restStmts, st3) := blockLoop fuel st2
        (stmt :: restStmts, st3)

/-- parseExpressionStatement parses one expression at LOWEST and eats a
trailing SEMICOLON if present. -/
def parseExpressionStatement : Nat → PState → Stmt × PState
  | 0, st => (Stmt.ExpressionStatement zeroToken none, st)
  | fuel + 1, st =>
    let exprTok := st.curToken
    let (e, st1) := parseExpression fuel LOWEST st
    let st2 := if peekTokenIs TokenType.SEMICOLON st1 then nextToken st1 else st1
    (Stmt.ExpressionStatement exprTok e, st2)

/-- parseExpression looks up the prefix parselet for the current kind
(recording the no-prefix-parselet error and yielding nil if absent),
then folds infix parselets while the minimum precedence is below the
peek precedence. -/
def parseExpression : Nat → Nat → PState → Option Expr × PState
  | 0, _, st => (none, st)
  | fuel + 1, prec, st =>
    match lookupPrefixFn st.curToken.type with
    | none => (none, noPrefixParseFnError st.curToken.type st)
    | some tag =>
      let (left, st1) := runPrefixFn fuel tag st
      runInfixLoop fuel prec left st1

/-- runInfixLoop is the while loop of parseExpression: while the minimum
precedence is below the peek precedence and an infix parselet exists,
advance and apply it. -/
def runInfixLoop : Nat → Nat → Option Expr → PState → Option Expr × PState
  | 0, _, left, st => (left, st)
  | fuel + 1, prec, left, st =>
    if prec < peekPrecedence st then
      match lookupInfixFn st.peekToken.type with
      | none => (left, st)
      | some tag =>
        let st1 := nextToken st
        let (left2, st2) := runInfixFn fuel tag left st1
        runInfixLoop fuel prec left2 st2
    else (left, st)

/-- runPrefixFn dispatches a prefix parselet tag to its function. -/
def runPrefixFn : Nat → PrefixFnTag → PState → Option Expr × PState
  | 0, _, st => (none, st)
  | fuel + 1, tag, st =>
    match tag with
    | PrefixFnTag.tagIllegal => parseInfixIllegalExpression st
    | PrefixFnTag.tagNumber => parseNumber st
    | PrefixFnTag.tagIdent => (some (parseIdentifier st), st)
    | PrefixFnTag.tagString => parseStringLiteral st
    | PrefixFnTag.tagFunction => parseFunctionLiteral fuel st
    | PrefixFnTag.tagBoolean => parseBooleanLiteral st
    | PrefixFnTag.tagArray => parseArrayLiteral fuel st
    | PrefixFnTag.tagHash => parseHashLiteral fuel st
    | PrefixFnTag.tagNil => parseNilExpression st
    | PrefixFnTag.tagPrefixOp => parsePrefixExpression fuel st
    | PrefixFnTag.tagGroup => parseGroupedExpression fuel st
    | PrefixFnTag.tagIf => parseIfExpression fuel st

/-- runInfixFn dispatches an infix parselet tag to its function. -/
def runInfixFn : Nat → InfixFnTag → Option Expr → PState → Option Expr × PState
  | 0, _, left, st => (left, st)
  | fuel + 1, tag, left, st =>
    match tag with
    | InfixFnTag.tagInfixOp => parseInfixExpression fuel left st
    | InfixFnTag.tagCall => parseCallExpression fuel left st
    | InfixFnTag.tagIndex => parseIndexExpression fuel left st
    | InfixFnTag.tagPostfixOp => parsePostfixExpression left st
    | InfixFnTag.tagMethod => parseMethodCallExpression fuel left st

/-- parsePrefixExpression parses the operand of a unary operator at
PREFIX precedence. -/
def parsePrefixExpression : Nat → PState → Option Expr × PState
  | 0, st => (none, st)
  | fuel + 1, st =>
    let opTok := st.curToken
    let st1 := nextToken st
    let (right, st2) := parseExpression fuel PREFIX st1
    (some (Expr.PrefixExpression opTok opTok.literal right), st2)

/-- parseInfixExpression parses the right operand at the operator's own
precedence, lowered by one for POWER to make ** right-associative. -/
def parseInfixExpression : Nat → Option Expr → PState → Option Expr × PState
  | 0, _, st => (none, st)
  | fuel + 1, left, st =>
    let opTok := st.curToken
    let basePrec := curPrecedence st
    let prec := if curTokenIs TokenType.POWER st then basePrec - 1 else basePrec
    let st1 := nextToken st
    let (right, st2) := parseExpression fuel prec st1
    (some (Expr.InfixExpression opTok opTok.literal left right false "" none), st2)

/-- parseGroupedExpression parses a parenthesized expression at LOWEST
and requires the closing RPAREN. -/
def parseGroupedExpression : Nat → PState → Option Expr × PState
  | 0, st => (none, st)
  | fuel + 1, st =>
    let st1 := nextToken st
    let (e, st2) := parseExpression fuel LOWEST st1
    let (ok, st3) := expectPeek TokenType.RPAREN st2
    if ok then (e, st3) else (none, st3)

/-- parseArrayLiteral parses the members up to RBRACKET. -/
def parseArrayLiteral : Nat → PState → Option Expr × PState
  | 0, st => (none, st)
  | fuel + 1, st =>
    let arrTok := st.curToken
    let (members, st1) := parseExpressionList fuel TokenType.RBRACKET st
    (some (Expr.ArrayLiteral arrTok members), st1)

/-- parseExpressionList parses a comma-separated expression list up to
the end kind; a failed closing expectPeek discards the list (Go returns
the nil slice) while keeping the recorded error. -/
def parseExpressionList : Nat → TokenType → PState → List (Option Expr) × PState
  | 0, _, st => ([], st)
  | fuel + 1, endT, st =>
    if peekTokenIs endT st then ([], nextToken st)
    else
      let st1 := nextToken st
      let (e1, st2) := parseExpression fuel LOWEST st1
      let (restEs, st3) := exprListLoop fuel st2
      let (ok, st4) := expectPeek endT st3
      if ok then (e1 :: restEs, st4) else ([], st4)

/-- exprListLoop is the comma loop of parseExpressionList. -/
def exprListLoop : Nat → PState → List (Option Expr) × PState
  | 0, st => ([], st)
  | fuel + 1, st =>
    if peekTokenIs TokenType.COMMA st then
      let st1 := nextToken (nextToken st)
      let (e, st2) := parseExpression fuel LOWEST st1
      let (restEs, st3) := exprListLoop fuel st2
      (e :: restEs, st3)
    else ([], st)

/-- parseHashLiteral parses zero or more key colon value pairs and
requires the closing RBRACE.  RBraceToken is never assigned, so it stays
the Go zero token (as in the source). -/
def parseHashLiteral : Nat → PState → Option Expr × PState
  | 0, st => (none, st)
  | fuel + 1, st =>
    let hashTok := st.curToken
    let (pairsR, st1) := hashPairsLoop fuel st
    match pairsR with
    | none => (none, st1)
    | some pairs =>
      let (ok, st2) := expectPeek TokenType.RBRACE st1
      if ok then
        (some (Expr.HashLiteral hashTok pairs zeroToken false []), st2)
      else (none, st2)

/-- hashPairsLoop is the pair loop of parseHashLiteral; none models the
early nil returns after a failed COLON or COMMA expectation. -/
def hashPairsLoop : Nat → PState → Option (List (Option Expr × Option Expr)) × PState
  | 0, st => (some [], st)
  | fuel + 1, st =>
    if peekTokenIs TokenType.RBRACE st then (some [], st)
    else
      let st1 := nextToken st
      let (k, st2) := parseExpression fuel LOWEST st1
      let (okColon, st3) := expectPeek TokenType.COLON st2
      if okColon then
        let st4 := nextToken st3
        let (v, st5) := parseExpression fuel LOWEST st4
        if peekTokenIs TokenType.RBRACE st5 then
          let (restPairs, st6) := hashPairsLoop fuel st5
          match restPairs with
          | none => (none, st6)
          | some ps => (some ((k, v) :: ps), st6)
        else
          let (okComma, st6) := expectPeek TokenType.COMMA st5
          if okComma then
            let (restPairs, st7) := hashPairsLoop fuel st6
            match restPairs with
            | none => (none, st7)
            | some ps => (some ((k, v) :: ps), st7)
          else (none, st6)
      else (none, st3)

/-- parseFunctionLiteral parses fn ( parameters ) block; the Name field
stays empty and Variadic false (the parser never sets them). -/
def parseFunctionLiteral : Nat → PState → Option Expr × PState
  | 0, st => (none, st)
  | fuel + 1, st =>
    let fnTok := st.curToken
    let (okL, st1) := expectPeek TokenType.LPAREN st
    if okL then
      let (params, st2) := parseFunctionParameters fuel st1
      let (okB, st3) := expectPeek TokenType.LBRACE st2
      if okB then
        let (body, st4) := parseBlockStatement fuel st3
        (some (Expr.FunctionLiteral fnTok "" params false (some body)), st4)
      else (none, st3)
    else (none, st1)

/-- parseFunctionParameters parses comma-separated identifiers up to
RPAREN; a failed closing expectPeek discards the list. -/
def parseFunctionParameters : Nat → PState → List Expr × PState
  | 0, st => ([], st)
  | fuel + 1, st =>
    if peekTokenIs TokenType.RPAREN st then ([], nextToken st)
    else
      let st1 := nextToken st
      let id1 := parseIdentifier st1
      let (restIds, st2) := paramsLoop fuel st1
      let (ok, st3) := expectPeek TokenType.RPAREN st2
      if ok then (id1 :: restIds, st3) else ([], st3)

/-- paramsLoop is the comma loop of parseFunctionParameters. -/
def paramsLoop : Nat → PState → List Expr × PState
  | 0, st => ([], st)
  | fuel + 1, st =>
    if peekTokenIs TokenType.COMMA st then
      let st1 := nextToken (nextToken st)
      let idN := parseIdentifier st1
      let (restIds, st2) := paramsLoop fuel st1
      (idN :: restIds, st2)
    else ([], st)

/-- parseCallExpression parses the argument list of a call whose callee
is the already-parsed left expression; Variadic stays false. -/
def parseCallExpression : Nat → Option Expr → PState → Option Expr × PState
  | 0, _, st => (none, st)
  | fuel + 1, function, st =>
    let lparenTok := st.curToken
    let (args, st1) := parseExpressionList fuel TokenType.RPAREN st
    (some (Expr.CallExpression lparenTok function args false), st1)

/-- parseIndexExpression parses the bracketed index at LOWEST and
requires the closing RBRACKET. -/
def parseIndexExpression : Nat → Option Expr → PState → Option Expr × PState
  | 0, _, st => (none, st)
  | fuel + 1, left, st =>
    let brTok := st.curToken
    let st1 := nextToken st
    let (ix, st2) := parseExpression fuel LOWEST st1
    let (ok, st3) := expectPeek TokenType.RBRACKET st2
    if ok then (some (Expr.IndexExpression brTok left ix), st3) else (none, st3)

/-- parseIfExpression parses the condition chain (which may also set the
alternative, as the Go function mutates the IfExpression in place). -/
def parseIfExpression : Nat → PState → Option Expr × PState
  | 0, st => (none, st)
  | fuel + 1, st =>
    let ifTok := st.curToken
    let (condsAlt, st1) := parseConditionalExpressions fuel st
    (some (Expr.IfExpression ifTok condsAlt.1 condsAlt.2), st1)

/-- parseConditionalExpressions parses the first condition and then the
else / else-if chain; the error return nil discards the collected
conditions (and the alternative is never set on that path). -/
def parseConditionalExpressions : Nat → PState →
    (List (Option IfConditionExpr) × Option BlockStatement) × PState
  | 0, st => (([], none), st)
  | fuel + 1, st =>
    let (c1, st1) := parseConditionalExpression fuel st
    let (r, st2) := condLoop fuel st1
    match r with
    | none => (([], none), st2)
    | some (cs, alt) => ((c1 :: cs, alt), st2)

/-- condLoop is the else chain loop: else followed by LBRACE parses the
alternative block and stops; else followed by anything else records the
else-needs-brace error and aborts (none); else-if recurses. -/
def condLoop : Nat → PState →
    Option (List (Option IfConditionExpr) × Option BlockStatement) × PState
  | 0, st => (some ([], none), st)
  | fuel + 1, st =>
    if peekTokenIs TokenType.ELSE st then
      let st1 := nextToken st
      if peekTokenIs TokenType.IF st1 then
        let st2 := nextToken st1
        let (c, st3) := parseConditionalExpression fuel st2
        let (r, st4) := condLoop fuel st3
        match r with
        | none => (none, st4)
        | some (cs, alt) => (some (c :: cs, alt), st4)
      else
        if peekTokenIs TokenType.LBRACE st1 then
          let st2 := nextToken st1
          let (b, st3) := parseBlockStatement fuel st2
          (some ([], some b), st3)
        else
          (none, recordError ErrMsg.elseNoBrace st1.curToken.pos st1.curToken.pos st1)
    else (some ([], none), st)

/-- parseConditionalExpression parses one condition expression and its
required braced body; a missing LBRACE records the if-needs-brace error
and yields nil. -/
def parseConditionalExpression : Nat → PState → Option IfConditionExpr × PState
  | 0, st => (none, st)
  | fuel + 1, st =>
    let condTok := st.curToken
    let st1 := nextToken st
    let (es, st2) := parseExpressionStatement fuel st1
    let cond := stmtExpr es
    if peekTokenIs TokenType.LBRACE st2 then
      let st3 := nextToken st2
      let (b, st4) := parseBlockStatement fuel st3
      (some (IfConditionExpr.mk condTok cond (some b)), st4)
    else
      (none, recordError ErrMsg.ifNoBrace st2.curToken.pos st2.curToken.pos st2)

/-- parseMethodCallExpression parses the right side of a dot: an
identifier followed by LPAREN becomes the callee of a call expression;
otherwise the right side is parsed at CALL precedence (not LOWEST). -/
def parseMethodCallExpression : Nat → Option Expr → PState → Option Expr × PState
  | 0, _, st => (none, st)
  | fuel + 1, obj, st =>
    let dotTok := st.curToken
    let st1 := nextToken st
    let name := parseIdentifier st1
    if peekTokenIs TokenType.LPAREN st1 then
      let st2 := nextToken st1
      let (c, st3) := parseCallExpression fuel (some name) st2
      (some (Expr.MethodCallExpression dotTok obj c), st3)
    else
      let (c, st2) := parseExpression fuel CALL st1
      (some (Expr.MethodCallExpression dotTok obj c), st2)

end

/-- NewParser builds the initial parser state and pumps nextToken twice,
as the Go constructor does. -/
def NewParser (ts : List Token) : PState :=
  nextToken (nextToken
    { curToken := zeroToken, peekToken := zeroToken, rest := ts,
      errors := [], errorLines := [] })

/-- ParseOutcome packages the program, the two error sequences and the
final parser state. -/
structure ParseOutcome where
  program : List Stmt
  errors : List PError
  errorLines : List String
  finalState : PState

/-- runParse parses a token stream with the given fuel. -/
def runParse (fuel : Nat) (ts : List Token) : ParseOutcome :=
  let st := NewParser ts
  let (prog, st1) := ParseProgram fuel st
  { program := prog, errors := st1.errors, errorLines := st1.errorLines,
    finalState := st1 }

/-- parserFuel is ample fuel for every concrete input in this file. -/
def parserFuel : Nat := 90

/-- parseInput lexes a source string and parses the token stream. -/
def parseInput (s : String) : ParseOutcome :=
  runParse parserFuel (tokenize s)

/-!
Erasure: a token- and position-free skeleton of the AST, used to state
structural facts about parse results (associativity, shapes).  The
constructor eabs marks a Go nil pointer.
-/

/-- EE is the erased expression/statement skeleton. -/
inductive EE where
  | eabs
  | enum (literal : String)
  | eid (value : String)
  | ebool (value : Bool)
  | estr (value : String)
  | enil
  | epre (op : String) (right : EE)
  | ebin (op : String) (left right : EE)
  | epost (op : String) (left : EE)
  | eidx (left index : EE)
  | ecall (function : EE) (args : List EE)
  | emeth (object call : EE)
  | efn (params : List EE) (body : EE)
  | earr (members : List EE)
  | ehash (pairs : List (EE × EE))
  | eif (conds : List EE) (alt : EE)
  | econd (cond body : EE)
  | eblockAbs
  | eblock (stmts : List EE)
  | elet (names values : List EE)
  | eret (values : List EE)
  | eestmt (e : EE)

mutual

/-- eraseExpr forgets tokens and positions of an expression. -/
def eraseExpr : Expr → EE
  | Expr.NumberLiteral token => EE.enum token.literal
  | Expr.Identifier _ value => EE.eid value
  | Expr.BooleanLiteral _ value => EE.ebool value
  | Expr.StringLiteral _ value => EE.estr value
  | Expr.NilLiteral _ => EE.enil
  | Expr.PrefixExpression _ op right => EE.epre op (eraseOpt right)
  | Expr.InfixExpression _ op left right _ _ _ =>
    EE.ebin op (eraseOpt left) (eraseOpt right)
  | Expr.PostfixExpression _ left op => EE.epost op (eraseOpt left)
  | Expr.IndexExpression _ left index => EE.eidx (eraseOpt left) (eraseOpt index)
  | Expr.CallExpression _ function args _ =>
    EE.ecall (eraseOpt function) (eraseOptList args)
  | Expr.MethodCallExpression _ object call =>
    EE.emeth (eraseOpt object) (eraseOpt call)
  | Expr.FunctionLiteral _ _ params _ body =>
    EE.efn (eraseList params) (eraseOptBlock body)
  | Expr.ArrayLiteral _ members => EE.earr (eraseOptList members)
  | Expr.HashLiteral _ pairs _ _ _ => EE.ehash (erasePairs pairs)
  | Expr.IfExpression _ conds alt =>
    EE.eif (eraseConds conds) (eraseOptBlock alt)

/-- eraseOpt forgets a possibly-nil expression. -/
def eraseOpt : Option Expr → EE
  | none => EE.eabs
  | some e => eraseExpr e

/-- eraseList erases each element of an expression list. -/
def eraseList : List Expr → List EE
  | [] => []
  | e :: es => eraseExpr e :: eraseList es

/-- eraseOptList erases each element of a possibly-nil expression list. -/
def eraseOptList : List (Option Expr) → List EE
  | [] => []
  | e :: es => eraseOpt e :: eraseOptList es

/-- erasePairs erases hash pairs. -/
def erasePairs : List (Option Expr × Option Expr) → List (EE × EE)
  | [] => []
  | (k, v) :: ps => (eraseOpt k, eraseOpt v) :: erasePairs ps

/-- eraseConds erases a condition list. -/
def eraseConds : List (Option IfConditionExpr) → List EE
  | [] => []
  | none :: cs => EE.eabs :: eraseConds cs
  | some (IfConditionExpr.mk _ cond body) :: cs =>
    EE.econd (eraseOpt cond) (eraseOptBlock body) :: eraseConds cs

/-- eraseOptBlock erases a possibly-nil block. -/
def eraseOptBlock : Option BlockStatement → EE
  | none => EE.eblockAbs
  | some (BlockStatement.mk _ stmts _) => EE.eblock (eraseStmts stmts)

/-- eraseStmts erases a statement list. -/
def eraseStmts : List Stmt → List EE
  | [] => []
  | s :: ss => eraseStmt s :: eraseStmts ss

/-- eraseStmt forgets tokens and positions of a statement. -/
def eraseStmt : Stmt → EE
  | Stmt.LetStatement _ names values =>
    EE.elet (eraseList names) (eraseList values)
  | Stmt.ReturnStatement _ values => EE.eret (eraseList values)
  | Stmt.BlockStmt (BlockStatement.mk _ stmts _) => EE.eblock (eraseStmts stmts)
  | Stmt.ExpressionStatement _ e => EE.eestmt (eraseOpt e)

end

/-- eraseProgram erases the parsed top-level statement list. -/
def eraseProgram (o : ParseOutcome) : List EE :=
  eraseStmts o.program

/-!
Claim-level apparatus: extractors, checkers and concrete states used to
state the frozen claims, followed by the error-line alignment invariant
for claim C8.  INV states that errorLines is exactly the filename:line
rendering of the recorded errors, index-aligned; the parser only touches
the error lists through recordError, whose two appends stay aligned
because every call site passes a message position on the same line as
the error-line position.
-/

/-- firstLetValue extracts the first value of a leading let statement. -/
def firstLetValue : List Stmt → Option Expr
  | Stmt.LetStatement _ _ (v :: _) :: _ => some v
  | _ => none

/-- binaryOpSpellings lists every registered binary infix operator other
than ** (the POWER operator). -/
def binaryOpSpellings : List String :=
  ["+", "-", "*", "/", "%", "<", "<=", ">", ">=", "==", "!="]

/-- leftAssocCheck parses 1 op 2 op 3 and checks that the result is the
left-nested Infix((1 op 2) op 3) with the operator preserved. -/
def leftAssocCheck (op : String) : Bool :=
  match eraseProgram (parseInput ("1 " ++ op ++ " 2 " ++ op ++ " 3")) with
  | [EE.eestmt (EE.ebin o1 (EE.ebin o2 (EE.enum "1") (EE.enum "2")) (EE.enum "3"))] =>
    o1 == op && o2 == op
  | _ => false

/-- c6State is a parser state whose current token is let at (1,1) and
whose peek token is the assign sign, as after reading let = 5. -/
def c6State : PState :=
  { curToken := { type := TokenType.LET, literal := "let",
                  pos := { filename := "", line := 1, col := 1 } },
    peekToken := { type := TokenType.ASSIGN, literal := "=",
                   pos := { filename := "", line := 1, col := 5 } },
    rest := [], errors := [], errorLines := [] }

/-- c7StateSemi is a parser state whose current token is a semicolon, a
kind with no prefix parselet. -/
def c7StateSemi : PState :=
  { curToken := { type := TokenType.SEMICOLON, literal := ";",
                  pos := { filename := "", line := 1, col := 1 } },
    peekToken := { type := TokenType.EOF, literal := "",
                   pos := { filename := "", line := 1, col := 2 } },
    rest := [], errors := [], errorLines := [] }

/-- c7StateEof is a parser state whose current token is EOF. -/
def c7StateEof : PState :=
  { curToken := { type := TokenType.EOF, literal := "",
                  pos := { filename := "", line := 1, col := 1 } },
    peekToken := { type := TokenType.EOF, literal := "",
                   pos := { filename := "", line := 1, col := 1 } },
    rest := [], errors := [], errorLines := [] }

/-- INV: the errorLines sequence is the index-aligned filename:line
rendering of the errors sequence. -/
def INV (st : PState) : Prop :=
  st.errorLines = st.errors.map (fun e => e.pos.sline)

/-- ParserInvAll packages INV preservation for every mutual parser
function at a given fuel. -/
def ParserInvAll (fuel : Nat) : Prop :=
  (∀ st, INV st → INV (ParseProgram fuel st).2) ∧
  (∀ st, INV st → INV (parseStatement fuel st).2) ∧
  (∀ st, INV st → INV (parseLetStatement fuel st).2) ∧
  (∀ st, INV st → INV (parseReturnStatement fuel st).2) ∧
  (∀ st, INV st → INV (parseBlockStatement fuel st).2) ∧
  (∀ st, INV st → INV (blockLoop fuel st).2) ∧
  (∀ st, INV st → INV (parseExpressionStatement fuel st).2) ∧
  (∀ prec st, INV st → INV (parseExpression fuel prec st).2) ∧
  (∀ prec left st, INV st → INV (runInfixLoop fuel prec left st).2) ∧
  (∀ tag st, INV st → INV (runPrefixFn fuel tag st).2) ∧
  (∀ tag left st, INV st → INV (runInfixFn fuel tag left st).2) ∧
  (∀ st, INV st → INV (parsePrefixExpression fuel st).2) ∧
  (∀ left st, INV st → INV (parseInfixExpression fuel left st).2) ∧
  (∀ st, INV st → INV (parseGroupedExpression fuel st).2) ∧
  (∀ st, INV st → INV (parseArrayLiteral fuel st).2) ∧
  (∀ endT st, INV st → INV (parseExpressionList fuel endT st).2) ∧
  (∀ st, INV st → INV (exprListLoop fuel st).2) ∧
  (∀ st, INV st → INV (parseHashLiteral fuel st).2) ∧
  (∀ st, INV st → INV (hashPairsLoop fuel st).2) ∧
  (∀ st, INV st → INV (parseFunctionLiteral fuel st).2) ∧
  (∀ st, INV st → INV (parseFunctionParameters fuel st).2) ∧
  (∀ st, INV st → INV (paramsLoop fuel st).2) ∧
  (∀ fn st, INV st → INV (parseCallExpression fuel fn st).2) ∧
  (∀ left st, INV st → INV (parseIndexExpression fuel left st).2) ∧
  (∀ st, INV st → INV (parseIfExpression fuel st).2) ∧
  (∀ st, INV st → INV (parseConditionalExpressions fuel st).2) ∧
  (∀ st, INV st → INV (condLoop fuel st).2) ∧
  (∀ st, INV st → INV (parseConditionalExpression fuel st).2) ∧
  (∀ obj st, INV st → INV (parseMethodCallExpression fuel obj st).2)

/-- inv_nextToken: shifting the token window touches no error list. -/
theorem inv_nextToken {st : PState} (h : INV st) : INV (nextToken st) := by
  unfold nextToken
  cases st.rest <;> exact h

/-- inv_recordError: one aligned append on each side preserves INV when
the message position renders to the same filename:line as the error-line
position. -/
theorem inv_recordError (m : ErrMsg) (mpos lpos : Position)
    (hsl : mpos.sline = lpos.sline) {st : PState} (h : INV st) :
    INV (recordError m mpos lpos st) := by
  unfold INV recordError at *
  simp [h, hsl]

/-- inv_peekError: the column shift keeps the line, so the two appends of
peekError stay aligned. -/
theorem inv_peekError (t : TokenType) {st : PState} (h : INV st) :
    INV (peekError t st) :=
  inv_recordError _ _ _ rfl h

/-- inv_expectPeek: both outcomes of expectPeek preserve INV. -/
theorem inv_expectPeek (t : TokenType) {st : PState} (h : INV st) :
    INV (expectPeek t st).2 := by
  unfold expectPeek
  split
  · exact inv_nextToken h
  · exact inv_peekError t h

/-- inv_noPrefixParseFnError: the EOF exemption leaves the state alone;
otherwise one aligned append. -/
theorem inv_noPrefixParseFnError (t : TokenType) {st : PState} (h : INV st) :
    INV (noPrefixParseFnError t st) := by
  unfold noPrefixParseFnError
  split
  · exact h
  · exact inv_recordError _ _ _ rfl h

/-- inv_parseNumber: the not-a-float error is one aligned append. -/
theorem inv_parseNumber {st : PState} (h : INV st) : INV (parseNumber st).2 := by
  unfold parseNumber
  split
  · exact h
  · exact inv_recordError _ _ _ rfl h

/-- inv_parseInfixIllegalExpression: one aligned append. -/
theorem inv_parseInfixIllegalExpression {st : PState} (h : INV st) :
    INV (parseInfixIllegalExpression st).2 :=
  inv_recordError _ _ _ rfl h

/-- parserInvAll: every parser function preserves INV, by induction on
fuel (the fuel-exhaustion defaults return the state untouched). -/
theorem parserInvAll : ∀ fuel, ParserInvAll fuel := by
  intro fuel
  induction fuel with
  | zero =>
    exact ⟨fun _ h => h, fun _ h => h, fun _ h => h, fun _ h => h, fun _ h => h,
      fun _ h => h, fun _ h => h, fun _ _ h => h, fun _ _ _ h => h, fun _ _ h => h,
      fun _ _ _ h => h, fun _ h => h, fun _ _ h => h, fun _ h => h, fun _ h => h,
      fun _ _ h => h, fun _ h => h, fun _ h => h, fun _ h => h, fun _ h => h,
      fun _ h => h, fun _ h => h, fun _ _ h => h, fun _ _ h => h, fun _ h => h,
      fun _ h => h, fun _ h => h, fun _ h => h, fun _ _ h => h⟩
  | succ f ih =>
    obtain ⟨iPP, iStmt, iLet, iRet, iBlock, iBLoop, iEStmt, iExpr, iILoop, iRunP,
      iRunI, iPre, iInf, iGrp, iArr, iEList, iELoop, iHash, iHLoop, iFn, iFnP,
      iPLoop, iCall, iIdx, iIf, iConds, iCLoop, iCond, iMeth⟩ := ih
    refine ⟨?_, ?_, ?_, ?_, ?_, ?_, ?_, ?_, ?_, ?_, ?_, ?_, ?_, ?_, ?_, ?_, ?_,
      ?_, ?_, ?_, ?_, ?_, ?_, ?_, ?_, ?_, ?_, ?_, ?_⟩
    · -- ParseProgram
      intro st h
      simp only [ParseProgram]
      split
      · exact h
      · exact iPP _ (inv_nextToken (iStmt st h))
    · -- parseStatement
      intro st h
      simp only [parseStatement]
      split
      · exact iLet st h
      · exact iRet st h
      · exact iBlock st h
      · exact iEStmt st h
    · -- parseLetStatement
      intro st h
      simp only [parseLetStatement]
      split
      · exact iEStmt _ (inv_nextToken (inv_expectPeek _ (inv_expectPeek _ h)))
      · exact inv_expectPeek _ (inv_expectPeek _ h)
    · -- parseReturnStatement
      intro st h
      simp only [parseReturnStatement]
      split
      · exact inv_nextToken h
      · split
        · exact h
        · exact iEStmt _ (inv_nextToken h)
    · -- parseBlockStatement
      intro st h
      simp only [parseBlockStatement]
      exact iBLoop _ (inv_nextToken h)
    · -- blockLoop
      intro st h
      simp only [blockLoop]
      split
      · exact h
      · split
        · exact iStmt st h
        · exact iBLoop _ (inv_nextToken (iStmt st h))
    · -- parseExpressionStatement
      intro st h
      simp only [parseExpressionStatement]
      split
      · exact inv_nextToken (iExpr LOWEST st h)
      · exact iExpr LOWEST st h
    · -- parseExpression
      intro prec st h
      simp only [parseExpression]
      split
      · exact inv_noPrefixParseFnError _ h
      · exact iILoop prec _ _ (iRunP _ st h)
    · -- runInfixLoop
      intro prec left st h
      simp only [runInfixLoop]
      split
      · split
        · exact h
        · exact iILoop prec _ _ (iRunI _ left (nextToken st) (inv_nextToken h))
      · exact h
    · -- runPrefixFn
      intro tag st h
      simp only [runPrefixFn]
      split
      · exact inv_parseInfixIllegalExpression h
      · exact inv_parseNumber h
      · exact h
      · exact h
      · exact iFn st h
      · exact h
      · exact iArr st h
      · exact iHash st h
      · exact h
      · exact iPre st h
      · exact iGrp st h
      · exact iIf st h
    · -- runInfixFn
      intro tag left st h
      simp only [runInfixFn]
      split
      · exact iInf left st h
      · exact iCall left st h
      · exact iIdx left st h
      · exact h
      · exact iMeth left st h
    · -- parsePrefixExpression
      intro st h
      simp only [parsePrefixExpression]
      exact iExpr PREFIX _ (inv_nextToken h)
    · -- parseInfixExpression
      intro left st h
      simp only [parseInfixExpression]
      exact iExpr _ _ (inv_nextToken h)
    · -- parseGroupedExpression
      intro st h
      simp only [parseGroupedExpression]
      split
      · exact inv_expectPeek _ (iExpr LOWEST _ (inv_nextToken h))
      · exact inv_expectPeek _ (iExpr LOWEST _ (inv_nextToken h))
    · -- parseArrayLiteral
      intro st h
      simp only [parseArrayLiteral]
      exact iEList TokenType.RBRACKET st h
    · -- parseExpressionList
      intro endT st h
      simp only [parseExpressionList]
      split
      · exact inv_nextToken h
      · split
        · exact inv_expectPeek _ (iELoop _ (iExpr LOWEST _ (inv_nextToken h)))
        · exact inv_expectPeek _ (iELoop _ (iExpr LOWEST _ (inv_nextToken h)))
    · -- exprListLoop
      intro st h
      simp only [exprListLoop]
      split
      · exact iELoop _ (iExpr LOWEST _ (inv_nextToken (inv_nextToken h)))
      · exact h
    · -- parseHashLiteral
      intro st h
      simp only [parseHashLiteral]
      split
      · exact iHLoop st h
      · split
        · exact inv_expectPeek _ (iHLoop st h)
        · exact inv_expectPeek _ (iHLoop st h)
    · -- hashPairsLoop
      intro st h
      simp only [hashPairsLoop]
      have h2 : INV (parseExpression f LOWEST (nextToken st)).2 :=
        iExpr _ _ (inv_nextToken h)
      have h3 : INV (expectPeek TokenType.COLON
          (parseExpression f LOWEST (nextToken st)).2).2 :=
        inv_expectPeek _ h2
      have h5 : INV (parseExpression f LOWEST (nextToken (expectPeek TokenType.COLON
          (parseExpression f LOWEST (nextToken st)).2).2)).2 :=
        iExpr _ _ (inv_nextToken h3)
      have h6 : INV (hashPairsLoop f (parseExpression f LOWEST
          (nextToken (expectPeek TokenType.COLON
            (parseExpression f LOWEST (nextToken st)).2).2)).2).2 :=
        iHLoop _ h5
      have h7 : INV (expectPeek TokenType.COMMA (parseExpression f LOWEST
          (nextToken (expectPeek TokenType.COLON
            (parseExpression f LOWEST (nextToken st)).2).2)).2).2 :=
        inv_expectPeek _ h5
      have h8 : INV (hashPairsLoop f (expectPeek TokenType.COMMA
          (parseExpression f LOWEST (nextToken (expectPeek TokenType.COLON
            (parseExpression f LOWEST (nextToken st)).2).2)).2).2).2 :=
        iHLoop _ h7
      repeat' split
      all_goals first
        | exact h | exact h2 | exact h3 | exact h5 | exact h6 | exact h7 | exact h8
    · -- parseFunctionLiteral
      intro st h
      simp only [parseFunctionLiteral]
      split
      · split
        · exact iBlock _ (inv_expectPeek _ (iFnP _ (inv_expectPeek _ h)))
        · exact inv_expectPeek _ (iFnP _ (inv_expectPeek _ h))
      · exact inv_expectPeek _ h
    · -- parseFunctionParameters
      intro st h
      simp only [parseFunctionParameters]
      split
      · exact inv_nextToken h
      · split
        · exact inv_expectPeek _ (iPLoop _ (inv_nextToken h))
        · exact inv_expectPeek _ (iPLoop _ (inv_nextToken h))
    · -- paramsLoop
      intro st h
      simp only [paramsLoop]
      split
      · exact iPLoop _ (inv_nextToken (inv_nextToken h))
      · exact h
    · -- parseCallExpression
      intro fn st h
      simp only [parseCallExpression]
      exact iEList TokenType.RPAREN st h
    · -- parseIndexExpression
      intro left st h
      simp only [parseIndexExpression]
      split
      · exact inv_expectPeek _ (iExpr LOWEST _ (inv_nextToken h))
      · exact inv_expectPeek _ (iExpr LOWEST _ (inv_nextToken h))
    · -- parseIfExpression
      intro st h
      simp only [parseIfExpression]
      exact iConds st h
    · -- parseConditionalExpressions
      intro st h
      simp only [parseConditionalExpressions]
      split
      · exact iCLoop _ (iCond st h)
      · exact iCLoop _ (iCond st h)
    · -- condLoop
      intro st h
      simp only [condLoop]
      have h2 : INV (parseConditionalExpression f (nextToken (nextToken st))).2 :=
        iCond _ (inv_nextToken (inv_nextToken h))
      have h3 : INV (condLoop f
          (parseConditionalExpression f (nextToken (nextToken st))).2).2 :=
        iCLoop _ h2
      have h4 : INV (parseBlockStatement f (nextToken (nextToken st))).2 :=
        iBlock _ (inv_nextToken (inv_nextToken h))
      have h5 : INV (recordError ErrMsg.elseNoBrace (nextToken st).curToken.pos
          (nextToken st).curToken.pos (nextToken st)) :=
        inv_recordError _ _ _ rfl (inv_nextToken h)
      repeat' split
      all_goals first
        | exact h | exact h2 | exact h3 | exact h4 | exact h5
    · -- parseConditionalExpression
      intro st h
      simp only [parseConditionalExpression]
      split
      · exact iBlock _ (inv_nextToken (iEStmt _ (inv_nextToken h)))
      · exact inv_recordError _ _ _ rfl (iEStmt _ (inv_nextToken h))
    · -- parseMethodCallExpression
      intro obj st h
      simp only [parseMethodCallExpression]
      split
      · exact iCall _ _ (inv_nextToken (inv_nextToken h))
      · exact iExpr CALL _ (inv_nextToken h)

/-- C1.  The spec claims that rendering an error-free Program and
re-parsing the rendering yields a Program whose own rendering is
byte-identical to the first rendering.  The code breaks this on the
error-free input consisting of a top-level block statement:
BlockStatement.String() omits the surrounding braces (every other call
site re-adds them by hand), so the Program containing Block[a] renders
as the bare statement list a; which re-parses as an expression
statement rendering a, not a;. -/
theorem c1_render_fixed_point_fails_on_block_statement :
    (parseInput "\x7b a \x7d").errors = [] ∧
    programString (parseInput "\x7b a \x7d").program = some "a;" ∧
    programString (parseInput "a;").program = some "a" ∧
    (some "a" : Option String) ≠ some "a;" :=
  ⟨rfl, rfl, rfl, by decide⟩

/-- C2.  The spec claims end() is greater than or equal to pos() in
lexicographic (line, column) order for every node of a well-formed
parse, naming hash literals such as the value of let x = brace 1: 2
brace.  The code breaks this: parseHashLiteral never assigns
RBraceToken, so HashLiteral.End() reads the zero token's position and
returns (line 0, col 1), which precedes Pos() = (line 1, col 9). -/
theorem c2_hash_literal_end_precedes_pos :
    (parseInput "let x = \x7b1: 2\x7d").errors = [] ∧
    eraseProgram (parseInput "let x = \x7b1: 2\x7d") =
      [EE.elet [EE.eid "x"] [EE.ehash [(EE.enum "1", EE.enum "2")]]] ∧
    Option.bind (firstLetValue (parseInput "let x = \x7b1: 2\x7d").program) exprPos =
      some { filename := "", line := 1, col := 9 } ∧
    Option.bind (firstLetValue (parseInput "let x = \x7b1: 2\x7d").program) exprEnd =
      some { filename := "", line := 0, col := 1 } ∧
    lexLE { filename := "", line := 1, col := 9 }
      { filename := "", line := 0, col := 1 } = false :=
  ⟨rfl, rfl, rfl, rfl, rfl⟩

/-- C3.  Parsing the single statement return 1; and rendering the
resulting Program yields exactly return 1; — the Return statement
renders as the return literal, a space, the comma-joined values and a
semicolon. -/
theorem c3_return_statement_round_trip :
    (parseInput "return 1;").errors = [] ∧
    eraseProgram (parseInput "return 1;") = [EE.eret [EE.enum "1"]] ∧
    programString (parseInput "return 1;").program = some "return 1;" :=
  ⟨rfl, rfl, rfl⟩

/-- C4.  The exponentiation operator ** is right-associative — parsing
3 ** 2 ** 3 yields Infix(3, **, Infix(2, **, 3)), via the right operand
being parsed at PRODUCT - 1 — and every other registered binary operator
is left-associative. -/
theorem c4_power_right_associative_others_left :
    eraseProgram (parseInput "3 ** 2 ** 3") =
      [EE.eestmt (EE.ebin "**" (EE.enum "3")
        (EE.ebin "**" (EE.enum "2") (EE.enum "3")))] ∧
    binaryOpSpellings.all leftAssocCheck = true :=
  ⟨rfl, rfl⟩

/-- C5.  The right side of a dot not followed by a left parenthesis is
parsed at CALL precedence, so obj.A + 1 is Infix(MethodCall(obj, A), +, 1)
and not MethodCall(obj, Infix(A, +, 1)); with a left parenthesis the
identifier becomes the callee of a call expression. -/
theorem c5_method_call_right_operand_at_call_precedence :
    eraseProgram (parseInput "obj.A + 1") =
      [EE.eestmt (EE.ebin "+"
        (EE.emeth (EE.eid "obj") (EE.eid "A")) (EE.enum "1"))] ∧
    eraseProgram (parseInput "obj.f(1)") =
      [EE.eestmt (EE.emeth (EE.eid "obj")
        (EE.ecall (EE.eid "f") [EE.enum "1"]))] :=
  ⟨rfl, rfl⟩

/-- C6.  A failing expect_peek(k) records exactly one error carrying the
expected kind and the actual peek kind, positioned at the current
token's position with the column advanced by the rune count of its
literal; it returns false and leaves the token window unchanged, so
parsing continues.  On let = 5 this yields exactly one error, the
expected-IDENTIFIER one, and the parse still collects the value 5. -/
theorem c6_expect_peek_mismatch_records_single_error :
    (∀ (st : PState) (t : TokenType), st.peekToken.type ≠ t →
      (expectPeek t st).1 = false ∧
      (expectPeek t st).2.errors = st.errors ++
        [{ msg := ErrMsg.expectedNext t st.peekToken.type,
           pos := { st.curToken.pos with
                    col := st.curToken.pos.col + (st.curToken.literal.length : Int) } }] ∧
      (expectPeek t st).2.errorLines = st.errorLines ++ [st.curToken.pos.sline] ∧
      (expectPeek t st).2.curToken = st.curToken ∧
      (expectPeek t st).2.peekToken = st.peekToken) ∧
    (parseInput "let = 5").errors =
      [{ msg := ErrMsg.expectedNext TokenType.IDENTIFIER TokenType.ASSIGN,
         pos := { filename := "", line := 1, col := 4 } }] ∧
    eraseProgram (parseInput "let = 5") = [EE.elet [] [EE.enum "5"]] := by
  refine ⟨?_, rfl, rfl⟩
  intro st t h
  simp [expectPeek, peekTokenIs, peekError, recordError, beq_eq_false_iff_ne, h]

/-- Witness for C6: on c6State, expecting IDENTIFIER fails and records
the single expected-IDENTIFIER-got-ASSIGN error at column 4 = 1 + 3. -/
theorem c6_expect_peek_witness :
    (expectPeek TokenType.IDENTIFIER c6State).1 = false ∧
    (expectPeek TokenType.IDENTIFIER c6State).2.errors =
      [{ msg := ErrMsg.expectedNext TokenType.IDENTIFIER TokenType.ASSIGN,
         pos := { filename := "", line := 1, col := 4 } }] :=
  ⟨(c6_expect_peek_mismatch_records_single_error.1 c6State TokenType.IDENTIFIER
      (by decide)).1,
   (c6_expect_peek_mismatch_records_single_error.1 c6State TokenType.IDENTIFIER
      (by decide)).2.1⟩

/-- C7.  When parse_expression finds no prefix parselet for the current
token it records the no-prefix-parse-functions error and yields nil for
every kind except EOF; for EOF no error is appended, so parsing 3 **
(with EOF after the operator) adds no error at all. -/
theorem c7_no_prefix_parselet_error_eof_exempt :
    (∀ (fuel prec : Nat) (st : PState),
      lookupPrefixFn st.curToken.type = none →
      st.curToken.type ≠ TokenType.EOF →
      parseExpression (fuel + 1) prec st =
        (none, recordError (ErrMsg.noPrefixFn st.curToken.type)
          st.curToken.pos st.curToken.pos st)) ∧
    (∀ (fuel prec : Nat) (st : PState),
      lookupPrefixFn st.curToken.type = none →
      st.curToken.type = TokenType.EOF →
      parseExpression (fuel + 1) prec st = (none, st)) ∧
    (parseInput "3 ** ").errors = [] := by
  refine ⟨?_, ?_, rfl⟩
  · intro fuel prec st h1 h2
    simp [parseExpression, h1, noPrefixParseFnError, beq_eq_false_iff_ne, h2]
  · intro fuel prec st h1 h2
    simp [parseExpression, h1, noPrefixParseFnError, h2]
    rfl

/-- Witness for C7: at a semicolon the no-prefix-parselet error is
recorded; at EOF the state is returned untouched. -/
theorem c7_no_prefix_parselet_witness :
    parseExpression 1 1 c7StateSemi =
      (none, recordError (ErrMsg.noPrefixFn TokenType.SEMICOLON)
        { filename := "", line := 1, col := 1 }
        { filename := "", line := 1, col := 1 } c7StateSemi) ∧
    parseExpression 1 1 c7StateEof = (none, c7StateEof) :=
  ⟨c7_no_prefix_parselet_error_eof_exempt.1 0 1 c7StateSemi rfl (by decide),
   c7_no_prefix_parselet_error_eof_exempt.2.1 0 1 c7StateEof rfl rfl⟩

/-- C8.  After parsing any input (any token stream, any fuel, and in
particular any lexed source string), errors() and error_lines() have
equal length, the i-th error line being the filename:line rendering of
the i-th error's position. -/
theorem c8_error_lines_align_with_errors :
    (∀ (fuel : Nat) (ts : List Token),
      (runParse fuel ts).errorLines =
        (runParse fuel ts).errors.map (fun e => e.pos.sline)) ∧
    (∀ s : String,
      (parseInput s).errorLines =
        (parseInput s).errors.map (fun e => e.pos.sline)) := by
  constructor
  · intro fuel ts
    exact (parserInvAll fuel).1 (NewParser ts) (inv_nextToken (inv_nextToken rfl))
  · intro s
    exact (parserInvAll parserFuel).1 (NewParser (tokenize s))
      (inv_nextToken (inv_nextToken rfl))

/-- C9.  CallExpression.Pos() is the position of the call's left
parenthesis token with the column decreased by the rune count of the
rendered callee. -/
theorem c9_call_pos_subtracts_callee_length :
    ∀ (tok : Token) (f : Option Expr) (args : List (Option Expr)) (v : Bool) (s : String),
      optExprString f = some s →
      exprPos (Expr.CallExpression tok f args v) =
        some { filename := tok.pos.filename, line := tok.pos.line,
               col := tok.pos.col - (s.length : Int) } := by
  intro tok f args v s h
  simp [exprPos, h]

/-- Witness for C9: a concrete call of callee f at a left parenthesis in
column 2 reports position column 1. -/
theorem c9_call_pos_witness :
    exprPos (Expr.CallExpression
      { type := TokenType.LPAREN, literal := "(",
        pos := { filename := "", line := 1, col := 2 } }
      (some (Expr.Identifier
        { type := TokenType.IDENTIFIER, literal := "f",
          pos := { filename := "", line := 1, col := 1 } } "f"))
      [] false) =
    some { filename := "", line := 1, col := 1 } :=
  c9_call_pos_subtracts_callee_length
    { type := TokenType.LPAREN, literal := "(",
      pos := { filename := "", line := 1, col := 2 } }
    (some (Expr.Identifier
      { type := TokenType.IDENTIFIER, literal := "f",
        pos := { filename := "", line := 1, col := 1 } } "f"))
    [] false "f" rfl

/-- C10.  BlockStatement.String() reads the last byte of each contained
statement's rendering without a guard: an expression statement with an
absent expression renders to the empty string, a block containing such a
statement panics (none), and a block all of whose statements render
nonempty is well-defined. -/
theorem c10_block_string_nonempty_precondition :
    (∀ tok : Token, stmtString (Stmt.ExpressionStatement tok none) = some "") ∧
    (∀ tok etok rb : Token,
      blockString (BlockStatement.mk tok [Stmt.ExpressionStatement etok none] rb) = none) ∧
    (∀ stmts : List Stmt,
      (∀ s ∈ stmts, ∃ str, stmtString s = some str ∧ str ≠ "") →
      ∃ out, blockStmtsString stmts = some out) := by
  refine ⟨fun _ => rfl, fun _ _ _ => rfl, ?_⟩
  intro stmts h
  induction stmts with
  | nil => exact ⟨"", rfl⟩
  | cons s ss ih =>
    obtain ⟨str, hs, hne⟩ := h s (by simp)
    obtain ⟨out, hout⟩ := ih (fun t ht => h t (by simp [ht]))
    refine ⟨str ++ (if String.takeRight str 1 != ";" then ";" else "") ++ out, ?_⟩
    simp [blockStmtsString, hs, hout, hne]

/-- Witness for C10: the empty-expression statement renders empty, the
block around it panics, and a block of one return statement (rendering
to a nonempty string) is well-defined. -/
theorem c10_block_string_witness :
    stmtString (Stmt.ExpressionStatement zeroToken none) = some "" ∧
    blockString (BlockStatement.mk zeroToken
      [Stmt.ExpressionStatement zeroToken none] zeroToken) = none ∧
    ∃ out, blockStmtsString [Stmt.ReturnStatement zeroToken []] = some out :=
  ⟨c10_block_string_nonempty_precondition.1 zeroToken,
   c10_block_string_nonempty_precondition.2.1 zeroToken zeroToken zeroToken,
   c10_block_string_nonempty_precondition.2.2 [Stmt.ReturnStatement zeroToken []]
     (by intro s hs
         simp only [List.mem_singleton] at hs
         subst hs
         exact ⟨" ;", rfl, by decide⟩)⟩

end Magpie
